import Mathlib

/-!
Shallow embedding of `jsonschema/validators.py`: the validation engine
(`Validator.iter_errors`, `is_valid`, `validate`), the reference resolver
(`RefResolver` with its scope stack, `resolve`, `resolve_local`,
`resolve_fragment`, `resolving`), variant construction (`create`, `extend`)
and variant selection (`validator_for`), together with theorems settling
the specification claims about them.

JSON documents are modelled by an inductive type; Python dicts become
association lists (lookup finds the first matching key, as Python dicts
have unique keys).  External library functions used by the source
(`urllib.parse.urljoin`, `urllib.parse.unquote`, and the network fetch in
`resolve_remote`) are taken as parameters, since they are collaborators
outside this repository.  The in-scope string manipulations the source
performs (`str.split`, `str.replace`, `str.lstrip`, `str.rstrip`,
`urldefrag`, which is a split at the first `#`) are implemented here at
the character-list level with Python's semantics.
-/

namespace Jsonschema

/-- A JSON value.  Python's `True`/`False` schema literals are `bool`;
mappings are association lists (first binding wins on lookup). -/
inductive JSON where
  | null : JSON
  | bool : Bool → JSON
  | num : Int → JSON
  | str : String → JSON
  | arr : List JSON → JSON
  | obj : List (String × JSON) → JSON

/-- Python truthiness of a JSON value (`None`, `False`, `0`, `""`, `[]`,
`{}` are falsy; everything else is truthy). -/
def JSON.truthy : JSON → Bool
  | .null => false
  | .bool b => b
  | .num n => !(n == 0)
  | .str s => !(s == "")
  | .arr xs => !xs.isEmpty
  | .obj kvs => !kvs.isEmpty

mutual
/-- Stand-in for Python `repr` of a JSON value, used only to build
diagnostic message strings. -/
def JSON.reprStr : JSON → String
  | JSON.null => "None"
  | JSON.bool true => "True"
  | JSON.bool false => "False"
  | JSON.num n => toString n
  | JSON.str s => "'" ++ s ++ "'"
  | JSON.arr xs => "[" ++ reprItems xs ++ "]"
  | JSON.obj kvs => "\x7b" ++ reprFields kvs ++ "\x7d"

def reprItems : List JSON → String
  | [] => ""
  | [x] => JSON.reprStr x
  | x :: y :: rest => JSON.reprStr x ++ ", " ++ reprItems (y :: rest)

def reprFields : List (String × JSON) → String
  | [] => ""
  | [(k, v)] => "'" ++ k ++ "': " ++ JSON.reprStr v
  | (k, v) :: p :: rest =>
      "'" ++ k ++ "': " ++ JSON.reprStr v ++ ", " ++ reprFields (p :: rest)
end

/-- A segment of an instance path or schema path (deque entries in the
source: property names / keyword names, or array indices). -/
inductive PathSeg where
  | key : String → PathSeg
  | idx : Nat → PathSeg
deriving DecidableEq

/-- `jsonschema.exceptions.ValidationError`.  Modelled from the spec:
`exceptions.py` is not among the sources here; spec section 4.4 says a
diagnostic's message and instance are supplied at the failure site while
"keyword, keyword-value, schema, and paths may be supplied then or filled
in later by the engine", and section 4.2 step 5 says fields the callable
already set are not overwritten.  `none` marks a not-yet-filled field;
paths are deques with `appendleft` = `cons`.  Nested child diagnostics
(`context`) are omitted: no claim concerns them. -/
structure VError where
  message : String
  validator : Option String
  validator_value : Option JSON
  inst : Option JSON
  schema : Option JSON
  path : List PathSeg
  schema_path : List PathSeg

/-- `jsonschema.exceptions.RefResolutionError` (modelled from the spec as
a message-carrying resolution failure). -/
structure RefError where
  message : String

/-- `ValidationError._set` as the spec describes it: fill in keyword,
keyword-value, instance and schema only where the callable has not
already set them. -/
def VError.set (e : VError) (k : String) (v : JSON) (i : JSON) (s : JSON) : VError :=
  { e with
    validator := e.validator.orElse fun _ => some k,
    validator_value := e.validator_value.orElse fun _ => some v,
    inst := e.inst.orElse fun _ => some i,
    schema := e.schema.orElse fun _ => some s }

/- ---------------------------------------------------------------------
String helpers: the concrete string operations the source performs,
implemented over character lists with Python's semantics.
--------------------------------------------------------------------- -/

/-- Python `str.replace(pat, repl)` specialised to a two-character pattern
`[a, b]` and one-character replacement `r` (the only shape the source
uses: `"~1" -> "/"` and `"~0" -> "~"`); leftmost, non-overlapping. -/
def replace2 (a b r : Char) : List Char → List Char
  | [] => []
  | [c] => [c]
  | c :: d :: rest =>
      if c = a ∧ d = b then r :: replace2 a b r rest
      else c :: replace2 a b r (d :: rest)

/-- Python `str.split("/")` (single-character separator):
`"" ↦ [""]`, separators produce empty segments. -/
def splitSlash : List Char → List (List Char)
  | [] => [[]]
  | c :: rest =>
      if c = '/' then [] :: splitSlash rest
      else
        match splitSlash rest with
        | [] => [[c]]
        | seg :: segs => (c :: seg) :: segs

/-- Python `str.rstrip("/")`: drop every trailing `'/'`. -/
def rstripSlash (s : String) : String :=
  String.mk ((s.data.reverse.dropWhile (fun c => c = '/')).reverse)

/-- Python `str.lstrip("/")`: drop every leading `'/'`. -/
def lstripSlash (s : String) : String :=
  String.mk (s.data.dropWhile (fun c => c = '/'))

/-- Helper for `urldefrag`: split a character list at the first `'#'`
(the `'#'` itself is dropped). -/
def breakAtHash : List Char → List Char × List Char
  | [] => ([], [])
  | c :: rest =>
      if c = '#' then ([], rest)
      else
        let p := breakAtHash rest
        (c :: p.1, p.2)

/-- `urllib.parse.urldefrag`: split a URL at its first `'#'` into
(defragmented URL, fragment). -/
def urldefrag (url : String) : String × String :=
  let p := breakAtHash url.data
  (String.mk p.1, String.mk p.2)

/-- The JSON-pointer unescape the source applies to each segment:
`part.replace("~1", "/").replace("~0", "~")`. -/
def partUnescape (p : List Char) : List Char :=
  replace2 '~' '0' '~' (replace2 '~' '1' '/' p)

/-- Python indexing `xs[i]` with an `int` index: negative indices count
from the end; out-of-range yields `IndexError` (here `none`). -/
def pyIndex {β : Type} (xs : List β) (i : Int) : Option β :=
  if 0 ≤ i then xs[i.toNat]?
  else if 0 ≤ i + xs.length then xs[(i + xs.length).toNat]?
  else none

/- ---------------------------------------------------------------------
RefResolver
--------------------------------------------------------------------- -/

mutual
/-- `RefResolver._finditem`: collect, in document order, every dict in
`schema` that has `key`, recursing into dict values only (the source does
not recurse into lists).  `finditemValues` is the loop over
`schema.values()`. -/
def finditem : JSON → String → List JSON
  | JSON.obj kvs, key =>
      (if (List.lookup key kvs).isSome then [JSON.obj kvs] else []) ++
        finditemValues kvs key
  | _, _ => []

def finditemValues : List (String × JSON) → String → List JSON
  | [], _ => []
  | (_, v) :: rest, key =>
      (match v with
       | JSON.obj kvs2 => finditem (JSON.obj kvs2) key
       | _ => []) ++ finditemValues rest key
end

/-- The resolution error raised for an unresolvable JSON pointer:
`RefResolutionError(f"Unresolvable JSON pointer: {fragment!r}")` (the
`!r` quoting of the fragment is modelled as surrounding quotes). -/
def ptrError (frag : String) : RefError :=
  ⟨"Unresolvable JSON pointer: " ++ "'" ++ frag ++ "'"⟩

/-- The pointer-walking loop of `resolve_fragment`: for each segment,
unescape `~1`/`~0`; when the current node is sequence-like (a JSON array,
or a string — Python `str` is a `Sequence`) coerce the segment to an
integer index; then index the node.  A `TypeError`/`LookupError`
(absent key, out-of-range index, non-indexable node, or a non-integer
segment on a sequence) raises the unresolvable-pointer error naming the
(lstripped) fragment. -/
def walkPtr (frag : String) : List (List Char) → JSON → Except RefError JSON
  | [], document => .ok document
  | p :: rest, document =>
      let part := partUnescape p
      match document with
      | JSON.arr xs =>
          match String.toInt? (String.mk part) with
          | some i =>
              match pyIndex xs i with
              | some d => walkPtr frag rest d
              | none => .error (ptrError frag)
          | none => .error (ptrError frag)
      | JSON.str s =>
          match String.toInt? (String.mk part) with
          | some i =>
              match pyIndex s.data i with
              | some c => walkPtr frag rest (JSON.str (String.mk [c]))
              | none => .error (ptrError frag)
          | none => .error (ptrError frag)
      | JSON.obj kvs =>
          match List.lookup (String.mk part) kvs with
          | some d => walkPtr frag rest d
          | none => .error (ptrError frag)
      | _ => .error (ptrError frag)

/-- The value of `sub[kw]` when it is a string (anchor comparison
`fragment == subschema[keyword]` can only succeed for string values). -/
def anchorString (sub : JSON) (kw : String) : Option String :=
  match sub with
  | JSON.obj kvs =>
      match List.lookup kw kvs with
      | some (JSON.str s) => some s
      | _ => none
  | _ => none

/-- The anchor search of `resolve_fragment`: first every `$anchor`
occurrence in document order, then every `$dynamicAnchor`. -/
def findAnchor (document : JSON) (frag : String) : Option JSON :=
  match (finditem document "$anchor").find?
      (fun sub => anchorString sub "$anchor" == some frag) with
  | some sub => some sub
  | none =>
      (finditem document "$dynamicAnchor").find?
        (fun sub => anchorString sub "$dynamicAnchor" == some frag)

section Resolver

/- External collaborators of the resolver: `urllib.parse.urljoin`,
`urllib.parse.unquote` (percent-decoding), and the remote fetch performed
by `resolve_remote` (network / scheme handlers; failures arrive as
`RefResolutionError` since `resolve_from_url` wraps any fetch exception in
one). -/
variable (urljoin : String → String → String)
variable (unquote : String → String)
variable (fetch : String → Except RefError JSON)

/-- `RefResolver.resolve_fragment`: lstrip `'/'`, try anchors, else walk
the fragment as a JSON pointer (`unquote`, split on `'/'`, unescape each
segment). -/
def resolve_fragment (document : JSON) (fragment : String) : Except RefError JSON :=
  let frag := lstripSlash fragment
  match (if frag ≠ "" then findAnchor document frag else none) with
  | some sub => .ok sub
  | none =>
      let parts := if frag ≠ "" then splitSlash (unquote frag).data else []
      walkPtr frag parts document

/-- `RefResolver` state: the referring document, the document store
(URI ↦ document; the source's `URIDict` normalisation and the lazy store
update on remote fetch are not modelled — no claim depends on them), and
the scope stack `_scopes_stack` (top of stack is the last element, as in
the Python list). -/
structure RefResolver where
  referrer : JSON
  store : List (String × JSON)
  scopes : List String

/-- `RefResolver.resolution_scope`: the top of the scope stack.  (The
source indexes `[-1]`; an empty stack would be an `IndexError`, modelled
as `""` — the stack is constructed non-empty.) -/
def RefResolver.resolution_scope (r : RefResolver) : String :=
  r.scopes.getLastD ""

/-- `RefResolver.push_scope`: join the new scope against the current one
and append it. -/
def RefResolver.push_scope (r : RefResolver) (scope : String) : RefResolver :=
  { r with scopes := r.scopes ++ [urljoin r.resolution_scope scope] }

/-- `RefResolver.pop_scope`: drop the top entry; popping an empty stack
raises `RefResolutionError` (the stack-underflow contract violation). -/
def RefResolver.pop_scope (r : RefResolver) : Except RefError RefResolver :=
  if r.scopes.isEmpty then
    .error ⟨"Failed to pop the scope from an empty stack. " ++
      "`pop_scope()` should only be called once for every `push_scope()`"⟩
  else .ok { r with scopes := r.scopes.dropLast }

/-- `subschema["$id"]` as a string (a non-string `$id` would make the
source's `urljoin` raise; such documents are outside the modelled range). -/
def idVal (sub : JSON) : Option String :=
  match sub with
  | JSON.obj kvs =>
      match List.lookup "$id" kvs with
      | some (JSON.str s) => some s
      | _ => none
  | _ => none

/-- The loop of `RefResolver.resolve_local` over the `$id`-bearing
subschemas found in the referrer: the first one whose `$id`, joined
against the current scope, equals the target URI (ignoring trailing
slashes) wins; a remaining fragment is then resolved inside it. -/
def resolveLocalGo (scope uri fragment : String) :
    List JSON → Except RefError (Option JSON)
  | [] => .ok none
  | sub :: rest =>
      match idVal sub with
      | some idStr =>
          if rstripSlash (urljoin scope idStr) = rstripSlash uri then
            if fragment ≠ "" then
              (resolve_fragment unquote sub fragment).map some
            else .ok (some sub)
          else resolveLocalGo scope uri fragment rest
      | none => resolveLocalGo scope uri fragment rest

/-- `RefResolver.resolve_local`. -/
def resolve_local (r : RefResolver) (url : String) (schema : JSON) :
    Except RefError (Option JSON) :=
  let p := urldefrag url
  resolveLocalGo urljoin unquote r.resolution_scope p.1 p.2 (finditem schema "$id")

/-- `RefResolver.resolve_from_url`: defrag, consult the store, otherwise
fetch remotely (any fetch failure arrives wrapped as a
`RefResolutionError`), then resolve the fragment. -/
def resolve_from_url (r : RefResolver) (url : String) : Except RefError JSON :=
  let p := urldefrag url
  match List.lookup p.1 r.store with
  | some document => resolve_fragment unquote document p.2
  | none =>
      match fetch p.1 with
      | .ok document => resolve_fragment unquote document p.2
      | .error e => .error e

/-- `RefResolver.resolve`: join the reference against the current scope
(stripping trailing slashes), attempt local resolution in the referrer,
and fall back to remote resolution when the local result is falsy
(`if local_resolve:` — Python truthiness, so both `None` and a falsy
resolved document fall through). -/
def resolve (r : RefResolver) (ref : String) : Except RefError (String × JSON) :=
  let url := rstripSlash (urljoin r.resolution_scope ref)
  match resolve_local urljoin unquote r url r.referrer with
  | .error e => .error e
  | .ok localResolve =>
      match localResolve with
      | some d =>
          if d.truthy then .ok (url, d)
          else (resolve_from_url unquote fetch r url).map fun doc => (url, doc)
      | none => (resolve_from_url unquote fetch r url).map fun doc => (url, doc)

/-- `RefResolver.resolving`, the context manager: resolve the reference,
push its URI as the new scope, run the body on the resolved document, and
pop the scope on every exit path (the body's outcome — normal or
exceptional — passes through; a failing pop in the `finally` replaces
the in-flight outcome). -/
def resolving {α : Type} (r : RefResolver) (ref : String)
    (body : JSON → RefResolver → Except RefError α × RefResolver) :
    Except RefError α × RefResolver :=
  match resolve urljoin unquote fetch r ref with
  | .error e => (.error e, r)
  | .ok (url, resolved) =>
      let r1 := RefResolver.push_scope urljoin r url
      let p := body resolved r1
      match RefResolver.pop_scope p.2 with
      | .ok r3 => (p.1, r3)
      | .error e => (.error e, p.2)

end Resolver

/- ---------------------------------------------------------------------
Validation engine
--------------------------------------------------------------------- -/

/-- Outcome of exhausting the `iter_errors` generator: the diagnostics it
yielded (in order), the exception it raised after them — if any — and
the resolver state once the generator has finished (its `finally` blocks
included). -/
structure IterOutcome where
  errors : List VError
  exc : Option RefError
  state : RefResolver

/-- A keyword callable `(validator, value, instance, schema) ->
iterable-of-diagnostics`.  The validator instance gives the callable
access to the shared resolver, so a callable maps the resolver state and
its three JSON arguments to yielded diagnostics, a possible exception,
and the updated resolver state. -/
def KeywordCallable : Type :=
  RefResolver → JSON → JSON → JSON → IterOutcome

/-- A validator class as `create` builds it: the per-variant
configuration bundle.  The type checker's type is abstract (`τ`): type
checking is an external collaborator. -/
structure ValidatorClass (τ : Type) where
  VALIDATORS : List (String × KeywordCallable)
  META_SCHEMA : JSON
  VOCABULARY_SCHEMAS : List JSON
  TYPE_CHECKER : τ
  ID_OF : JSON → String
  applicable_validators : JSON → List (String × JSON)

/-- `_id_of`: `""` for boolean schemas, else `schema.get("$id", "")`
(a non-string `$id` would propagate as-is in Python and fail later in
`urljoin`; it is modelled as `""`). -/
def _id_of (schema : JSON) : String :=
  match schema with
  | JSON.obj kvs =>
      match List.lookup "$id" kvs with
      | some (JSON.str s) => s
      | _ => ""
  | _ => ""

/-- The default `applicable_validators`, `lambda schema: schema.items()`
(defined only on mappings; a non-mapping would raise in Python). -/
def defaultApplicable (schema : JSON) : List (String × JSON) :=
  match schema with
  | JSON.obj kvs => kvs
  | _ => []

/-- `create(...)`: package the configuration bundle. -/
def create {τ : Type} (meta_schema : JSON) (vocabulary_schemas : List JSON)
    (validators : List (String × KeywordCallable)) (type_checker : τ)
    (id_of : JSON → String)
    (applicable_validators : JSON → List (String × JSON)) : ValidatorClass τ :=
  { VALIDATORS := validators
    META_SCHEMA := meta_schema
    VOCABULARY_SCHEMAS := vocabulary_schemas
    TYPE_CHECKER := type_checker
    ID_OF := id_of
    applicable_validators := applicable_validators }

/-- `dict(old)` followed by `.update(new)`, for the keyword table:
a same-named entry in `new` fully replaces the old one. -/
def dictUpdate {β : Type} (old new : List (String × β)) : List (String × β) :=
  old.filter (fun p => (List.lookup p.1 new).isNone) ++ new

/-- `extend(validator, validators, version, type_checker)`: overlay the
keyword table and call `create` with the parent's meta-schema and
id-extraction function; `vocabulary_schemas` and `applicable_validators`
are **not** passed through, so the new class gets the empty vocabulary
list and the default applicable-validators function. -/
def extend {τ : Type} (validator : ValidatorClass τ)
    (validators : List (String × KeywordCallable)) (type_checker : Option τ) :
    ValidatorClass τ :=
  create validator.META_SCHEMA []
    (dictUpdate validator.VALIDATORS validators)
    (match type_checker with
     | some t => t
     | none => validator.TYPE_CHECKER)
    validator.ID_OF
    defaultApplicable

/-- The diagnostic yielded for the literal `False` schema. -/
def falseSchemaError (inst _schema : JSON) : VError :=
  { message := "False schema does not allow " ++ JSON.reprStr inst
    validator := none
    validator_value := none
    inst := some inst
    schema := some _schema
    path := []
    schema_path := [] }

/-- The per-error stamping `iter_errors` performs on each diagnostic a
keyword callable yields: `_set` the context fields, then prepend the
keyword to the schema path unless the keyword is `"if"` or `"$ref"`. -/
def decorateError (k : String) (v i s : JSON) (e : VError) : VError :=
  let e2 := e.set k v i s
  if k = "if" ∨ k = "$ref" then e2
  else { e2 with schema_path := PathSeg.key k :: e2.schema_path }

/-- The keyword loop of `iter_errors`: for each applicable `(k, v)` pair
with a registered callable, run it, decorate and yield its diagnostics;
an exception from a callable propagates (later keywords never run). -/
def iterKeywords (tbl : List (String × KeywordCallable))
    (inst sch : JSON) : List (String × JSON) → RefResolver → IterOutcome
  | [], r => ⟨[], none, r⟩
  | (k, v) :: rest, r =>
      match List.lookup k tbl with
      | none => iterKeywords tbl inst sch rest r
      | some f =>
          let out := f r v inst sch
          let decorated := out.errors.map (decorateError k v inst sch)
          match out.exc with
          | some e => ⟨decorated, some e, out.state⟩
          | none =>
              let restOut := iterKeywords tbl inst sch rest out.state
              ⟨decorated ++ restOut.errors, restOut.exc, restOut.state⟩

section Engine

variable (urljoin : String → String → String)

/-- The non-literal branch of `iter_errors` (source lines 183–207): push
the schema's `$id` scope when it is non-empty, run the applicable keyword
callables, and pop the scope on every exit path (the `finally`; a failing
pop replaces the in-flight exception and leaves the state untouched). -/
def iterSchemaKeywords {τ : Type} (cfg : ValidatorClass τ)
    (r : RefResolver) (inst s : JSON) : IterOutcome :=
  let scope := cfg.ID_OF s
  if scope = "" then
    iterKeywords cfg.VALIDATORS inst s (cfg.applicable_validators s) r
  else
    let r1 := RefResolver.push_scope urljoin r scope
    let out := iterKeywords cfg.VALIDATORS inst s (cfg.applicable_validators s) r1
    match RefResolver.pop_scope out.state with
    | .ok r2 => { out with state := r2 }
    | .error e => { out with exc := some e }

/-- `Validator.iter_errors(instance, _schema)`: nothing for the literal
`True` schema; exactly one diagnostic for the literal `False` schema;
otherwise run the applicable keyword callables inside the schema's `$id`
scope. -/
def Validator.iter_errors {τ : Type} (cfg : ValidatorClass τ)
    (r : RefResolver) (inst _schema : JSON) : IterOutcome :=
  match _schema with
  | JSON.bool true => ⟨[], none, r⟩
  | JSON.bool false => ⟨[falseSchemaError inst (JSON.bool false)], none, r⟩
  | s => iterSchemaKeywords urljoin cfg r inst s

/-- `Validator.is_valid`: `next(self.iter_errors(...), None) is None` —
`false` as soon as a first diagnostic exists, `true` on a clean empty
run, and a propagating resolution error otherwise. -/
def Validator.is_valid {τ : Type} (cfg : ValidatorClass τ)
    (r : RefResolver) (inst _schema : JSON) : Except RefError Bool :=
  let out := Validator.iter_errors urljoin cfg r inst _schema
  match out.errors with
  | _ :: _ => .ok false
  | [] =>
      match out.exc with
      | some e => .error e
      | none => .ok true

/-- Outcome of the strict engine entry point `Validator.validate`. -/
inductive ValidateResult where
  | ok
  | raised (e : VError)
  | resolutionError (e : RefError)

/-- `Validator.validate`: `for error in self.iter_errors(...): raise
error` — raise the first diagnostic, or let a pre-first-diagnostic
resolution error propagate, or do nothing. -/
def Validator.validate {τ : Type} (cfg : ValidatorClass τ)
    (r : RefResolver) (inst _schema : JSON) : ValidateResult :=
  let out := Validator.iter_errors urljoin cfg r inst _schema
  match out.errors with
  | e :: _ => .raised e
  | [] =>
      match out.exc with
      | some ex => .resolutionError ex
      | none => .ok

end Engine

/- ---------------------------------------------------------------------
Variant selection and the module-level validate convenience
--------------------------------------------------------------------- -/

/-- `validator_for(schema, default)`.  `meta_schemas` is the process-wide
registry (URI ↦ validator class), `latest` is `_LATEST_VERSION`.  The
second component records whether the deprecation warning for an
unrecognized `$schema` was emitted.  Boolean schemas and schemas without
`$schema` return the caller's `default`; an unrecognized `$schema` warns
and returns `_LATEST_VERSION` (ignoring `default`).  (A non-string
`$schema` value would raise inside the source's `URIDict` lookup; it is
modelled as an unrecognized URI.  Membership tests on non-mapping,
non-boolean schemas — Python `in` on strings or lists — are outside the
modelled range.) -/
def validator_for {α : Type} (meta_schemas : List (String × α)) (latest : α)
    (schema : JSON) (default : α) : α × Bool :=
  match schema with
  | JSON.bool _ => (default, false)
  | JSON.obj kvs =>
      match List.lookup "$schema" kvs with
      | none => (default, false)
      | some (JSON.str u) =>
          match List.lookup u meta_schemas with
          | some cls => (cls, false)
          | none => (latest, true)
      | some _ => (latest, true)
  | _ => (default, false)

/-- Association-list update `store[k] = v` (replace any existing binding). -/
def storeSet (store : List (String × JSON)) (k : String) (v : JSON) :
    List (String × JSON) :=
  store.filter (fun p => p.1 ≠ k) ++ [(k, v)]

/-- `RefResolver.from_schema`: base URI is the schema's own id, the
schema is the referrer, the store is the pre-seeded meta-schema /
vocabulary store with `store[base_uri] = referrer`, and the scope stack
starts as `[base_uri]`. -/
def RefResolver.from_schema (id_of : JSON → String)
    (seedStore : List (String × JSON)) (schema : JSON) : RefResolver :=
  { referrer := schema
    store := storeSet seedStore (id_of schema) schema
    scopes := [id_of schema] }

/-- Modelled from the spec: `jsonschema.exceptions.best_match` is not
among the sources here.  Spec section 4.4: it "selects the single most
relevant [diagnostic] to surface to a human, by a depth-then-specificity
heuristic (prefer the diagnostic from the deepest schema path,
tie-broken by context-specific weighting)"; `None` on an empty sequence.
Modelled as the first diagnostic with the deepest schema path. -/
def best_match (errs : List VError) : Option VError :=
  match errs with
  | [] => none
  | e :: rest =>
      some (rest.foldl
        (fun best e2 =>
          if best.schema_path.length < e2.schema_path.length then e2 else best)
        e)

/-- Outcome of `Validator.check_schema`. -/
inductive CheckResult where
  | ok
  | schemaError (e : VError)
  | resolutionError (e : RefError)

/-- Outcome of the module-level `validate`. -/
inductive ModuleValidateResult where
  | ok
  | schemaError (e : VError)
  | validationError (e : VError)
  | resolutionError (e : RefError)

section ModuleLevel

variable (urljoin : String → String → String)

/-- `Validator.check_schema`: validate the candidate schema against the
variant's own meta-schema with a fresh engine (a fresh resolver built
from the meta-schema), raising a `SchemaError` from the first diagnostic. -/
def check_schema {τ : Type} (cfg : ValidatorClass τ)
    (seedStore : List (String × JSON)) (schema : JSON) : CheckResult :=
  let r := RefResolver.from_schema cfg.ID_OF seedStore cfg.META_SCHEMA
  let out := Validator.iter_errors urljoin cfg r schema cfg.META_SCHEMA
  match out.errors with
  | e :: _ => .schemaError e
  | [] =>
      match out.exc with
      | some ex => .resolutionError ex
      | none => .ok

/-- The body of the module-level `validate` once the validator class is
selected: `cls.check_schema(schema)`, then build the validator (fresh
resolver from the schema) and raise
`best_match(validator.iter_errors(instance))` if any (an exception from
the generator propagates while `best_match` consumes it). -/
def validateWith {τ : Type} (cfg : ValidatorClass τ)
    (seedStore : List (String × JSON)) (inst schema : JSON) :
    ModuleValidateResult :=
  match check_schema urljoin cfg seedStore schema with
  | .schemaError e => .schemaError e
  | .resolutionError e => .resolutionError e
  | .ok =>
      let r := RefResolver.from_schema cfg.ID_OF seedStore schema
      let out := Validator.iter_errors urljoin cfg r inst schema
      match out.exc with
      | some ex => .resolutionError ex
      | none =>
          match best_match out.errors with
          | some e => .validationError e
          | none => .ok

/-- The module-level `validate(instance, schema, cls)`: auto-select the
variant via `validator_for` when `cls` is not given, then run
`validateWith`. -/
def validate {τ : Type} (meta_schemas : List (String × ValidatorClass τ))
    (latest : ValidatorClass τ) (seedStore : List (String × JSON))
    (cls : Option (ValidatorClass τ)) (inst schema : JSON) :
    ModuleValidateResult :=
  validateWith urljoin
    (match cls with
     | some c => c
     | none => (validator_for meta_schemas latest schema latest).1)
    seedStore inst schema

end ModuleLevel

/- ---------------------------------------------------------------------
Concrete fixtures used by witnesses and counterexamples
--------------------------------------------------------------------- -/

/-- A concrete `urljoin` instance for witnesses: the reference replaces
the base (the behaviour of RFC 3986 join on absolute references). -/
def urljoin0 : String → String → String := fun _ ref => ref

/-- A concrete `unquote` instance for witnesses: no percent-escapes. -/
def unquote0 : String → String := fun s => s

/-- A concrete remote fetch for witnesses: the network always fails. -/
def fetch0 : String → Except RefError JSON := fun _ => .error ⟨"no network"⟩

/-- A resolver over an empty referrer, as built for the schema `null`. -/
def resolver0 : RefResolver := ⟨JSON.null, [], [""]⟩

/-- A validator class with an empty keyword table. -/
def cfg0 : ValidatorClass Unit := ⟨[], JSON.bool true, [], (), _id_of, defaultApplicable⟩

/- ---------------------------------------------------------------------
C6: literal True / False schemas
--------------------------------------------------------------------- -/

/-- C6: for every instance, `iter_errors` against the literal `True`
schema yields no diagnostics (and leaves the resolver untouched), and
against the literal `False` schema yields exactly the one diagnostic
saying that no instance is allowed. -/
theorem c6_literal_schemas (urljoin : String → String → String) {τ : Type}
    (cfg : ValidatorClass τ) (r : RefResolver) (inst : JSON) :
    Validator.iter_errors urljoin cfg r inst (JSON.bool true) = ⟨[], none, r⟩
    ∧ Validator.iter_errors urljoin cfg r inst (JSON.bool false) =
        ⟨[falseSchemaError inst (JSON.bool false)], none, r⟩
    ∧ (falseSchemaError inst (JSON.bool false)).message =
        "False schema does not allow " ++ JSON.reprStr inst :=
  ⟨rfl, rfl, rfl⟩

/- ---------------------------------------------------------------------
C1: is_valid iff iter_errors yields nothing
--------------------------------------------------------------------- -/

/-- C1: on any run of the engine in which no resolution error propagates,
`is_valid` returns `true` iff `iter_errors` produced zero diagnostics. -/
theorem c1_is_valid_iff_no_errors (urljoin : String → String → String)
    {τ : Type} (cfg : ValidatorClass τ) (r : RefResolver) (inst _schema : JSON)
    (h : (Validator.iter_errors urljoin cfg r inst _schema).exc = none) :
    Validator.is_valid urljoin cfg r inst _schema = .ok true ↔
      (Validator.iter_errors urljoin cfg r inst _schema).errors = [] := by
  unfold Validator.is_valid
  cases herr : (Validator.iter_errors urljoin cfg r inst _schema).errors with
  | nil => simp [herr, h]
  | cons e rest => simp [herr]

/-- Witness for C1 at a concrete input. -/
theorem c1_witness :
    (Validator.iter_errors urljoin0 cfg0 resolver0 JSON.null (JSON.bool true)).exc = none
    ∧ (Validator.is_valid urljoin0 cfg0 resolver0 JSON.null (JSON.bool true) = .ok true ↔
        (Validator.iter_errors urljoin0 cfg0 resolver0 JSON.null (JSON.bool true)).errors = []) :=
  ⟨rfl, c1_is_valid_iff_no_errors urljoin0 cfg0 resolver0 JSON.null (JSON.bool true) rfl⟩

/- ---------------------------------------------------------------------
C7: unrecognized $schema degrades with a warning
--------------------------------------------------------------------- -/

/-- C7: a schema whose `$schema` URI is not in the meta-schema registry
does not make validator selection fail: `validator_for` returns the
latest supported variant and the deprecation warning is emitted. -/
theorem c7_unknown_metaschema_degrades {α : Type}
    (meta_schemas : List (String × α)) (latest : α)
    (kvs : List (String × JSON)) (u : String) (default : α)
    (hs : List.lookup "$schema" kvs = some (JSON.str u))
    (hu : List.lookup u meta_schemas = none) :
    validator_for meta_schemas latest (JSON.obj kvs) default = (latest, true) := by
  simp [validator_for, hs, hu]

/-- Witness for C7 at a concrete input. -/
theorem c7_witness :
    List.lookup "$schema" [("$schema", JSON.str "https://example/unknown")] =
      some (JSON.str "https://example/unknown")
    ∧ List.lookup "https://example/unknown" ([] : List (String × Nat)) = none
    ∧ validator_for ([] : List (String × Nat)) 1
        (JSON.obj [("$schema", JSON.str "https://example/unknown")]) 0 = (1, true) :=
  ⟨rfl, rfl,
    c7_unknown_metaschema_degrades [] 1 [("$schema", JSON.str "https://example/unknown")]
      "https://example/unknown" 0 rfl rfl⟩

/- ---------------------------------------------------------------------
C9: the default argument is honored only for boolean / $schema-less
schemas; an unrecognized $schema always yields the latest draft
--------------------------------------------------------------------- -/

/-- C9: with an unrecognized `$schema`, `validator_for` returns the
latest draft regardless of the caller's `default`; the `default` is
returned exactly for boolean schemas and mappings without `$schema`;
a recognized `$schema` returns the registered class (again ignoring
`default`). -/
theorem c9_default_only_without_schema_key {α : Type}
    (meta_schemas : List (String × α)) (latest : α) :
    (∀ kvs u d, List.lookup "$schema" kvs = some (JSON.str u) →
        List.lookup u meta_schemas = none →
        validator_for meta_schemas latest (JSON.obj kvs) d = (latest, true))
    ∧ (∀ b d, validator_for meta_schemas latest (JSON.bool b) d = (d, false))
    ∧ (∀ kvs d, List.lookup "$schema" kvs = none →
        validator_for meta_schemas latest (JSON.obj kvs) d = (d, false))
    ∧ (∀ kvs u d cls, List.lookup "$schema" kvs = some (JSON.str u) →
        List.lookup u meta_schemas = some cls →
        validator_for meta_schemas latest (JSON.obj kvs) d = (cls, false)) := by
  refine ⟨fun kvs u d hs hu => ?_, fun b d => rfl, fun kvs d hs => ?_,
    fun kvs u d cls hs hc => ?_⟩
  · simp [validator_for, hs, hu]
  · simp [validator_for, hs]
  · simp [validator_for, hs, hc]

/-- Witness for C9 at concrete inputs (registry `[("https://known", 5)]`,
latest `1`, caller default `0`). -/
theorem c9_witness :
    validator_for [("https://known", (5 : Nat))] 1
      (JSON.obj [("$schema", JSON.str "https://x")]) 0 = (1, true)
    ∧ validator_for [("https://known", (5 : Nat))] 1 (JSON.bool true) 0 = (0, false)
    ∧ validator_for [("https://known", (5 : Nat))] 1 (JSON.obj []) 0 = (0, false)
    ∧ validator_for [("https://known", (5 : Nat))] 1
        (JSON.obj [("$schema", JSON.str "https://known")]) 0 = (5, false) :=
  ⟨(c9_default_only_without_schema_key [("https://known", 5)] 1).1 _ "https://x" 0 rfl rfl,
    (c9_default_only_without_schema_key [("https://known", 5)] 1).2.1 true 0,
    (c9_default_only_without_schema_key [("https://known", 5)] 1).2.2.1 [] 0 rfl,
    (c9_default_only_without_schema_key [("https://known", 5)] 1).2.2.2 _ "https://known" 0 5 rfl rfl⟩

/- ---------------------------------------------------------------------
Helper lemmas about the keyword loop
--------------------------------------------------------------------- -/

/-- A successful association-list lookup is a membership. -/
theorem mem_of_lookup {β : Type} {k : String} {v : β} :
    ∀ {l : List (String × β)}, List.lookup k l = some v → (k, v) ∈ l := by
  intro l
  induction l with
  | nil => intro h; exact Option.noConfusion h
  | cons p rest ih =>
    intro h
    obtain ⟨k', v'⟩ := p
    rw [List.lookup_cons] at h
    cases hk : (k == k') with
    | false => simp only [hk] at h; exact List.mem_cons_of_mem _ (ih h)
    | true =>
      simp only [hk] at h
      have hkk : k = k' := by simpa using hk
      have hvv : v' = v := by injection h
      subst hkk
      subst hvv
      exact List.mem_cons_self _ _

/-- If every callable registered in the table preserves scope-stack
depth, so does the keyword loop. -/
theorem iterKeywords_depth {tbl : List (String × KeywordCallable)}
    (hcal : ∀ k f, (k, f) ∈ tbl →
      ∀ r' v i s, ((f r' v i s).state).scopes.length = r'.scopes.length)
    (inst sch : JSON) :
    ∀ (kvs : List (String × JSON)) (r : RefResolver),
      ((iterKeywords tbl inst sch kvs r).state).scopes.length =
        r.scopes.length := by
  intro kvs
  induction kvs with
  | nil => intro r; rfl
  | cons p rest ih =>
    intro r
    obtain ⟨k, v⟩ := p
    cases hf : List.lookup k tbl with
    | none => simpa only [iterKeywords, hf] using ih r
    | some f =>
      have hfr := hcal k f (mem_of_lookup hf) r v inst sch
      cases hexc : (f r v inst sch).exc with
      | some e => simp only [iterKeywords, hf, hexc]; exact hfr
      | none =>
        simp only [iterKeywords, hf, hexc]
        rw [ih ((f r v inst sch).state)]
        exact hfr

/-- Every diagnostic the keyword loop yields is a decorated diagnostic of
some applicable keyword with a registered callable. -/
theorem iterKeywords_errors_decorated {tbl : List (String × KeywordCallable)}
    (inst sch : JSON) :
    ∀ (kvs : List (String × JSON)) (r : RefResolver) (e : VError),
      e ∈ (iterKeywords tbl inst sch kvs r).errors →
      ∃ k v e0, (k, v) ∈ kvs ∧ (List.lookup k tbl).isSome ∧
        e = decorateError k v inst sch e0 := by
  intro kvs
  induction kvs with
  | nil => intro r e h; exact absurd h (List.not_mem_nil e)
  | cons p rest ih =>
    intro r e h
    obtain ⟨k, v⟩ := p
    cases hf : List.lookup k tbl with
    | none =>
      simp only [iterKeywords, hf] at h
      obtain ⟨k', v', e0, hm, hl, he⟩ := ih r e h
      exact ⟨k', v', e0, List.mem_cons_of_mem _ hm, hl, he⟩
    | some f =>
      cases hexc : (f r v inst sch).exc with
      | some ex =>
        simp only [iterKeywords, hf, hexc] at h
        obtain ⟨e0, _, he⟩ := List.mem_map.mp h
        exact ⟨k, v, e0, List.mem_cons_self _ _, by simp [hf], he.symm⟩
      | none =>
        simp only [iterKeywords, hf, hexc, List.mem_append] at h
        cases h with
        | inl h =>
          obtain ⟨e0, _, he⟩ := List.mem_map.mp h
          exact ⟨k, v, e0, List.mem_cons_self _ _, by simp [hf], he.symm⟩
        | inr h =>
          obtain ⟨k', v', e0, hm, hl, he⟩ := ih ((f r v inst sch).state) e h
          exact ⟨k', v', e0, List.mem_cons_of_mem _ hm, hl, he⟩

/-- The non-literal branch of `iter_errors` preserves scope-stack depth
whenever every registered callable does: the `$id` push is matched by the
`finally` pop on both the normal and the exceptional path. -/
theorem iterSchemaKeywords_depth (urljoin : String → String → String)
    {τ : Type} (cfg : ValidatorClass τ)
    (hcal : ∀ k f, (k, f) ∈ cfg.VALIDATORS →
      ∀ r' v i s, ((f r' v i s).state).scopes.length = r'.scopes.length)
    (r : RefResolver) (inst s : JSON) :
    ((iterSchemaKeywords urljoin cfg r inst s).state).scopes.length =
      r.scopes.length := by
  by_cases hs : cfg.ID_OF s = ""
  · simp only [iterSchemaKeywords, hs, if_pos]
    exact iterKeywords_depth hcal inst s (cfg.applicable_validators s) r
  · have hlen :
        ((iterKeywords cfg.VALIDATORS inst s (cfg.applicable_validators s)
          (RefResolver.push_scope urljoin r (cfg.ID_OF s))).state).scopes.length =
          r.scopes.length + 1 := by
      rw [iterKeywords_depth hcal inst s (cfg.applicable_validators s)]
      simp [RefResolver.push_scope]
    have hne :
        ((iterKeywords cfg.VALIDATORS inst s (cfg.applicable_validators s)
          (RefResolver.push_scope urljoin r (cfg.ID_OF s))).state).scopes.isEmpty = false := by
      cases hx : ((iterKeywords cfg.VALIDATORS inst s (cfg.applicable_validators s)
          (RefResolver.push_scope urljoin r (cfg.ID_OF s))).state).scopes with
      | nil => rw [hx] at hlen; simp only [List.length_nil] at hlen; omega
      | cons a l => rfl
    simp only [iterSchemaKeywords, hs, if_neg, RefResolver.pop_scope, hne,
      Bool.false_eq_true, if_false]
    simp only [List.length_dropLast, hlen]
    omega

/- ---------------------------------------------------------------------
C2: scope-stack depth is preserved by iter_errors and by resolving
--------------------------------------------------------------------- -/

/-- C2: provided every registered keyword callable preserves scope-stack
depth (the out-of-scope constraint checks are stateless; `$ref` handling
goes through `resolving`), a complete `iter_errors` run — normal or
exceptional — leaves the resolver's scope-stack depth unchanged; and any
use of the `resolving` context manager with a depth-preserving body does
too, on every exit path. -/
theorem c2_scope_stack_balanced (urljoin : String → String → String)
    (unquote : String → String) (fetch : String → Except RefError JSON)
    {τ : Type} (cfg : ValidatorClass τ) (r : RefResolver) (inst _schema : JSON)
    (hcal : ∀ k f, (k, f) ∈ cfg.VALIDATORS →
      ∀ r' v i s, ((f r' v i s).state).scopes.length = r'.scopes.length) :
    ((Validator.iter_errors urljoin cfg r inst _schema).state).scopes.length =
      r.scopes.length
    ∧ ∀ {α : Type} (ref : String)
        (body : JSON → RefResolver → Except RefError α × RefResolver),
        (∀ d r', ((body d r').2).scopes.length = r'.scopes.length) →
        ((resolving urljoin unquote fetch r ref body).2).scopes.length =
          r.scopes.length := by
  constructor
  · cases _schema with
    | bool b => cases b <;> rfl
    | null => exact iterSchemaKeywords_depth urljoin cfg hcal r inst _
    | num n => exact iterSchemaKeywords_depth urljoin cfg hcal r inst _
    | str s => exact iterSchemaKeywords_depth urljoin cfg hcal r inst _
    | arr xs => exact iterSchemaKeywords_depth urljoin cfg hcal r inst _
    | obj kvs => exact iterSchemaKeywords_depth urljoin cfg hcal r inst _
  · intro α ref body hbody
    cases hres : resolve urljoin unquote fetch r ref with
    | error e => simp [resolving, hres]
    | ok p =>
      obtain ⟨url, resolved⟩ := p
      have h1 : ((body resolved (RefResolver.push_scope urljoin r url)).2).scopes.length =
          r.scopes.length + 1 := by
        rw [hbody]
        simp [RefResolver.push_scope]
      have hne : ((body resolved (RefResolver.push_scope urljoin r url)).2).scopes.isEmpty = false := by
        cases hx : ((body resolved (RefResolver.push_scope urljoin r url)).2).scopes with
        | nil => rw [hx] at h1; simp only [List.length_nil] at h1; omega
        | cons a l => rfl
      simp only [resolving, hres, RefResolver.pop_scope, hne, Bool.false_eq_true,
        if_false]
      simp only [List.length_dropLast, h1]
      omega

/-- Witness for C2 at concrete inputs (empty keyword table, identity
body). -/
theorem c2_witness :
    ((Validator.iter_errors urljoin0 cfg0 resolver0 JSON.null (JSON.obj [])).state).scopes.length =
      resolver0.scopes.length
    ∧ ((resolving urljoin0 unquote0 fetch0 resolver0 "https://a"
        (fun d r' => (Except.ok d, r'))).2).scopes.length = resolver0.scopes.length := by
  have hvac : ∀ k f, (k, f) ∈ cfg0.VALIDATORS →
      ∀ r' v i s, ((f r' v i s).state).scopes.length = r'.scopes.length := by
    intro k f h
    exact absurd h (List.not_mem_nil _)
  exact ⟨(c2_scope_stack_balanced urljoin0 unquote0 fetch0 cfg0 resolver0
      JSON.null (JSON.obj []) hvac).1,
    (c2_scope_stack_balanced urljoin0 unquote0 fetch0 cfg0 resolver0
      JSON.null (JSON.obj []) hvac).2 "https://a" _ (fun d r' => rfl)⟩

/- ---------------------------------------------------------------------
C8: keyword name prepended to the schema path except for "if" / "$ref"
--------------------------------------------------------------------- -/

/-- C8: every diagnostic `iter_errors` yields for a non-literal schema
went through `decorateError` for some applicable keyword with a
registered callable, and `decorateError` prepends the keyword to the
diagnostic's schema path exactly when the keyword is neither `"if"` nor
`"$ref"` (those two are exempt and leave the schema path unchanged). -/
theorem c8_schema_path_decoration (urljoin : String → String → String)
    {τ : Type} (cfg : ValidatorClass τ) (r : RefResolver) (inst _schema : JSON)
    (hb : ∀ b, _schema ≠ JSON.bool b) :
    (∀ e, e ∈ (Validator.iter_errors urljoin cfg r inst _schema).errors →
      ∃ k v e0, (k, v) ∈ cfg.applicable_validators _schema ∧
        (List.lookup k cfg.VALIDATORS).isSome ∧
        e = decorateError k v inst _schema e0)
    ∧ (∀ k v i s e0, ¬(k = "if" ∨ k = "$ref") →
        (decorateError k v i s e0).schema_path = PathSeg.key k :: e0.schema_path)
    ∧ (∀ k v i s e0, (k = "if" ∨ k = "$ref") →
        (decorateError k v i s e0).schema_path = e0.schema_path) := by
  refine ⟨?_, ?_, ?_⟩
  · have hmain : ∀ e, e ∈ (iterSchemaKeywords urljoin cfg r inst _schema).errors →
        ∃ k v e0, (k, v) ∈ cfg.applicable_validators _schema ∧
          (List.lookup k cfg.VALIDATORS).isSome ∧
          e = decorateError k v inst _schema e0 := by
      intro e he
      by_cases hs : cfg.ID_OF _schema = ""
      · simp only [iterSchemaKeywords, hs, if_pos] at he
        exact iterKeywords_errors_decorated inst _schema _ r e he
      · simp only [iterSchemaKeywords, hs, if_neg] at he
        cases hp : RefResolver.pop_scope
            ((iterKeywords cfg.VALIDATORS inst _schema (cfg.applicable_validators _schema)
              (RefResolver.push_scope urljoin r (cfg.ID_OF _schema))).state) with
        | ok r2 =>
          rw [hp] at he
          exact iterKeywords_errors_decorated inst _schema _ _ e he
        | error ex =>
          rw [hp] at he
          exact iterKeywords_errors_decorated inst _schema _ _ e he
    cases _schema with
    | bool b => exact absurd rfl (hb b)
    | null => exact hmain
    | num n => exact hmain
    | str s => exact hmain
    | arr xs => exact hmain
    | obj kvs => exact hmain
  · intro k v i s e0 hk
    simp [decorateError, hk, VError.set]
  · intro k v i s e0 hk
    simp [decorateError, hk, VError.set]

/-- Witness for C8 at a concrete input. -/
theorem c8_witness :
    (∀ b, JSON.obj [("minimum", JSON.num 3)] ≠ JSON.bool b)
    ∧ ((∀ e, e ∈ (Validator.iter_errors urljoin0 cfg0 resolver0 (JSON.num 1)
          (JSON.obj [("minimum", JSON.num 3)])).errors →
        ∃ k v e0, (k, v) ∈ cfg0.applicable_validators (JSON.obj [("minimum", JSON.num 3)]) ∧
          (List.lookup k cfg0.VALIDATORS).isSome ∧
          e = decorateError k v (JSON.num 1) (JSON.obj [("minimum", JSON.num 3)]) e0)
      ∧ (∀ k v i s e0, ¬(k = "if" ∨ k = "$ref") →
          (decorateError k v i s e0).schema_path = PathSeg.key k :: e0.schema_path)
      ∧ (∀ k v i s e0, (k = "if" ∨ k = "$ref") →
          (decorateError k v i s e0).schema_path = e0.schema_path)) :=
  ⟨fun b h => JSON.noConfusion h,
    c8_schema_path_decoration urljoin0 cfg0 resolver0 (JSON.num 1)
      (JSON.obj [("minimum", JSON.num 3)]) (fun b h => JSON.noConfusion h)⟩

/- ---------------------------------------------------------------------
C10: extend overlays the keyword table and resets the rest
--------------------------------------------------------------------- -/

/-- Lookup in an overlaid dictionary: an entry in `new` fully replaces a
same-named entry of `old`. -/
theorem lookup_dictUpdate {β : Type} (new : List (String × β)) :
    ∀ (old : List (String × β)) (k : String),
      List.lookup k (dictUpdate old new) =
        (List.lookup k new).orElse fun _ => List.lookup k old := by
  intro old
  induction old with
  | nil =>
    intro k
    show List.lookup k (List.filter _ [] ++ new) = _
    rw [List.filter_nil, List.nil_append]
    cases h : List.lookup k new with
    | some f => simp [h]
    | none => simp [h]
  | cons p rest ih =>
    intro k
    obtain ⟨k', v'⟩ := p
    cases hn : List.lookup k' new with
    | some w =>
      have hstep : dictUpdate ((k', v') :: rest) new = dictUpdate rest new := by
        simp [dictUpdate, List.filter_cons, hn]
      rw [hstep, ih k]
      cases hkn : List.lookup k new with
      | some f => rfl
      | none =>
        have hk : (k == k') = false := by
          rw [beq_eq_false_iff_ne]
          intro he
          rw [he, hn] at hkn
          exact Option.noConfusion hkn
        simp only [List.lookup_cons, hk]
    | none =>
      have hstep : dictUpdate ((k', v') :: rest) new = (k', v') :: dictUpdate rest new := by
        simp [dictUpdate, List.filter_cons, hn]
      rw [hstep, List.lookup_cons]
      cases hk : (k == k') with
      | true =>
        have hkk : k = k' := by simpa using hk
        subst hkk
        simp only [hn, List.lookup_cons, hk]
        rfl
      | false =>
        simp only [hk]
        rw [ih k]
        cases hkn : List.lookup k new with
        | some f => rfl
        | none => simp only [hkn, List.lookup_cons, hk]

/-- C10: `extend` produces a class whose keyword table is the parent's
overlaid with the new callables (same-named entries fully replaced),
inheriting the parent's meta-schema, type-checker (when not overridden)
and id-extraction function, but resetting `applicable_validators` to the
default (`schema.items()`) and the vocabulary-schema list to empty. -/
theorem c10_extend_overlay_and_reset {τ : Type} (V : ValidatorClass τ)
    (new : List (String × KeywordCallable)) (tc : Option τ) :
    (∀ k, List.lookup k (extend V new tc).VALIDATORS =
        (List.lookup k new).orElse fun _ => List.lookup k V.VALIDATORS)
    ∧ (extend V new tc).META_SCHEMA = V.META_SCHEMA
    ∧ (tc = none → (extend V new tc).TYPE_CHECKER = V.TYPE_CHECKER)
    ∧ (extend V new tc).ID_OF = V.ID_OF
    ∧ (extend V new tc).applicable_validators = defaultApplicable
    ∧ (extend V new tc).VOCABULARY_SCHEMAS = [] := by
  refine ⟨fun k => ?_, rfl, ?_, rfl, rfl, rfl⟩
  · show List.lookup k (dictUpdate V.VALIDATORS new) = _
    exact lookup_dictUpdate new V.VALIDATORS k
  · intro h
    subst h
    rfl

/-- Witness for C10 at a concrete input (extending `cfg0` with nothing
and no type-checker override). -/
theorem c10_witness :
    List.lookup "a" (extend cfg0 [] (none : Option Unit)).VALIDATORS =
      List.lookup "a" cfg0.VALIDATORS
    ∧ (extend cfg0 [] (none : Option Unit)).META_SCHEMA = cfg0.META_SCHEMA
    ∧ (extend cfg0 [] (none : Option Unit)).TYPE_CHECKER = cfg0.TYPE_CHECKER
    ∧ (extend cfg0 [] (none : Option Unit)).ID_OF = cfg0.ID_OF
    ∧ (extend cfg0 [] (none : Option Unit)).applicable_validators = defaultApplicable
    ∧ (extend cfg0 [] (none : Option Unit)).VOCABULARY_SCHEMAS = [] :=
  ⟨(c10_extend_overlay_and_reset cfg0 [] none).1 "a",
    (c10_extend_overlay_and_reset cfg0 [] none).2.1,
    (c10_extend_overlay_and_reset cfg0 [] none).2.2.1 rfl,
    (c10_extend_overlay_and_reset cfg0 [] none).2.2.2.1,
    (c10_extend_overlay_and_reset cfg0 [] none).2.2.2.2.1,
    (c10_extend_overlay_and_reset cfg0 [] none).2.2.2.2.2⟩

/- ---------------------------------------------------------------------
C3: what the strict validate entry points raise
--------------------------------------------------------------------- -/

/-- A diagnostic with an empty schema path, as a callable might yield it
first. -/
def errShallow : VError := ⟨"shallow", none, none, none, none, [], []⟩

/-- A diagnostic with a deeper schema path, yielded second. -/
def errDeep : VError :=
  ⟨"deep", none, none, none, none, [], [PathSeg.key "x", PathSeg.key "y"]⟩

/-- A keyword callable yielding `errShallow` then `errDeep`. -/
def callableTwo : KeywordCallable := fun r _ _ _ => ⟨[errShallow, errDeep], none, r⟩

/-- A validator class whose single keyword `"k"` yields the two
diagnostics above; its meta-schema is the always-valid `True`. -/
def cfgTwo : ValidatorClass Unit :=
  ⟨[("k", callableTwo)], JSON.bool true, [], (), _id_of, defaultApplicable⟩

/-- A schema that triggers the `"k"` keyword. -/
def schemaTwo : JSON := JSON.obj [("k", JSON.null)]

/-- `errShallow` as `iter_errors` yields it (decorated). -/
def decShallow : VError := decorateError "k" JSON.null JSON.null schemaTwo errShallow

/-- `errDeep` as `iter_errors` yields it (decorated). -/
def decDeep : VError := decorateError "k" JSON.null JSON.null schemaTwo errDeep

/-- C3 counterexample: the module-level `validate` raises
`best_match(iter_errors(...))`, not the first diagnostic — here
`iter_errors` yields `decShallow` first, yet `validate` raises the
deeper `decDeep`. -/
theorem c3_counterexample_module_validate_not_first :
    validate urljoin0 [] cfgTwo [] (some cfgTwo) JSON.null schemaTwo =
      ModuleValidateResult.validationError decDeep
    ∧ (Validator.iter_errors urljoin0 cfgTwo
        (RefResolver.from_schema cfgTwo.ID_OF [] schemaTwo)
        JSON.null schemaTwo).errors.head? = some decShallow
    ∧ decDeep ≠ decShallow := by
  refine ⟨rfl, rfl, ?_⟩
  intro h
  exact absurd (congrArg VError.message h) (by decide)

/-- C3 (amended): the engine's `validate` raises the first diagnostic of
`iter_errors` and raises nothing when there is none; the module-level
`validate` (with an explicit class or auto-selecting via
`validator_for`), once the schema passes its own meta-schema check,
raises the best-match diagnostic of `iter_errors` — not necessarily the
first — and raises nothing when there is none. -/
theorem c3_validate_first_engine_best_match_module
    (urljoin : String → String → String) {τ : Type}
    (cfg : ValidatorClass τ) (r : RefResolver) (inst _schema : JSON)
    (cfg2 : ValidatorClass τ) (seedStore : List (String × JSON))
    (inst2 schema2 : JSON)
    (meta_schemas : List (String × ValidatorClass τ)) (latest : ValidatorClass τ) :
    (∀ e rest, (Validator.iter_errors urljoin cfg r inst _schema).errors = e :: rest →
        Validator.validate urljoin cfg r inst _schema = ValidateResult.raised e)
    ∧ ((Validator.iter_errors urljoin cfg r inst _schema).errors = [] →
        (Validator.iter_errors urljoin cfg r inst _schema).exc = none →
        Validator.validate urljoin cfg r inst _schema = ValidateResult.ok)
    ∧ validate urljoin meta_schemas latest seedStore (some cfg2) inst2 schema2 =
        validateWith urljoin cfg2 seedStore inst2 schema2
    ∧ validate urljoin meta_schemas latest seedStore none inst2 schema2 =
        validateWith urljoin (validator_for meta_schemas latest schema2 latest).1
          seedStore inst2 schema2
    ∧ (check_schema urljoin cfg2 seedStore schema2 = CheckResult.ok →
        (Validator.iter_errors urljoin cfg2
          (RefResolver.from_schema cfg2.ID_OF seedStore schema2) inst2 schema2).exc = none →
        (∀ e, best_match (Validator.iter_errors urljoin cfg2
            (RefResolver.from_schema cfg2.ID_OF seedStore schema2) inst2 schema2).errors =
              some e →
          validateWith urljoin cfg2 seedStore inst2 schema2 =
            ModuleValidateResult.validationError e)
        ∧ (best_match (Validator.iter_errors urljoin cfg2
            (RefResolver.from_schema cfg2.ID_OF seedStore schema2) inst2 schema2).errors =
              none →
          validateWith urljoin cfg2 seedStore inst2 schema2 = ModuleValidateResult.ok)) := by
  refine ⟨?_, ?_, rfl, rfl, ?_⟩
  · intro e rest herr
    simp only [Validator.validate, herr]
  · intro herr hexc
    simp only [Validator.validate, herr, hexc]
  · intro hcheck hexc
    constructor
    · intro e hbm
      simp only [validateWith, hcheck, hexc, hbm]
    · intro hbm
      simp only [validateWith, hcheck, hexc, hbm]

/-- Witness for C3's amended claim at a concrete input. -/
theorem c3_witness :
    check_schema urljoin0 cfgTwo [] schemaTwo = CheckResult.ok
    ∧ (Validator.iter_errors urljoin0 cfgTwo
        (RefResolver.from_schema cfgTwo.ID_OF [] schemaTwo)
        JSON.null schemaTwo).exc = none
    ∧ best_match (Validator.iter_errors urljoin0 cfgTwo
        (RefResolver.from_schema cfgTwo.ID_OF [] schemaTwo)
        JSON.null schemaTwo).errors = some decDeep
    ∧ validateWith urljoin0 cfgTwo [] JSON.null schemaTwo =
        ModuleValidateResult.validationError decDeep :=
  ⟨rfl, rfl, rfl,
    ((c3_validate_first_engine_best_match_module urljoin0 cfgTwo resolver0
        JSON.null (JSON.bool true) cfgTwo [] JSON.null schemaTwo [] cfgTwo).2.2.2.2
      rfl rfl).1 decDeep rfl⟩

/- ---------------------------------------------------------------------
C4: local-then-remote resolution
--------------------------------------------------------------------- -/

/-- A referrer whose `$id` matches the target URI and whose `"k"` member
is the (falsy) value `false`. -/
def referrerC : JSON :=
  JSON.obj [("$id", JSON.str "https://a"), ("k", JSON.bool false)]

/-- A resolver over `referrerC` whose store holds a different document
under the same URI. -/
def resolverC : RefResolver :=
  ⟨referrerC, [("https://a", JSON.obj [("k", JSON.str "REMOTE")])], ["https://a"]⟩

/-- C4 counterexample: local resolution finds a match (the referrer's
`"k"` member, the falsy value `false`), yet `resolve` still falls back to
remote resolution and returns the store's document instead — so the
fallback does not happen "if and only if there is no local match". -/
theorem c4_counterexample_falsy_local_match_falls_back :
    resolve_local urljoin0 unquote0 resolverC
        (rstripSlash (urljoin0 resolverC.resolution_scope "https://a#/k"))
        resolverC.referrer = .ok (some (JSON.bool false))
    ∧ resolve urljoin0 unquote0 fetch0 resolverC "https://a#/k" =
        .ok ("https://a#/k", JSON.str "REMOTE")
    ∧ JSON.str "REMOTE" ≠ JSON.bool false :=
  ⟨rfl, rfl, fun h => JSON.noConfusion h⟩

/-- C4 (amended): `resolve` joins the reference against the current
resolution scope (stripping trailing slashes), attempts local resolution
first, and falls back to remote resolution if and only if there is no
local match **or the locally matched result is a falsy value** (null,
false, zero, or an empty string/array/object); a resolution error raised
during local resolution propagates without fallback. -/
theorem c4_resolve_local_then_remote (urljoin : String → String → String)
    (unquote : String → String) (fetch : String → Except RefError JSON)
    (r : RefResolver) (ref : String) :
    (∀ d, resolve_local urljoin unquote r
          (rstripSlash (urljoin r.resolution_scope ref)) r.referrer = .ok (some d) →
        d.truthy = true →
        resolve urljoin unquote fetch r ref =
          .ok (rstripSlash (urljoin r.resolution_scope ref), d))
    ∧ (∀ d, resolve_local urljoin unquote r
          (rstripSlash (urljoin r.resolution_scope ref)) r.referrer = .ok (some d) →
        d.truthy = false →
        resolve urljoin unquote fetch r ref =
          (resolve_from_url unquote fetch r
            (rstripSlash (urljoin r.resolution_scope ref))).map
            fun doc => (rstripSlash (urljoin r.resolution_scope ref), doc))
    ∧ (resolve_local urljoin unquote r
          (rstripSlash (urljoin r.resolution_scope ref)) r.referrer = .ok none →
        resolve urljoin unquote fetch r ref =
          (resolve_from_url unquote fetch r
            (rstripSlash (urljoin r.resolution_scope ref))).map
            fun doc => (rstripSlash (urljoin r.resolution_scope ref), doc))
    ∧ (∀ e, resolve_local urljoin unquote r
          (rstripSlash (urljoin r.resolution_scope ref)) r.referrer = .error e →
        resolve urljoin unquote fetch r ref = .error e) := by
  refine ⟨?_, ?_, ?_, ?_⟩
  · intro d hloc htru
    simp only [resolve, hloc, htru, if_true]
  · intro d hloc htru
    simp only [resolve, hloc, htru, Bool.false_eq_true, if_false]
  · intro hloc
    simp only [resolve, hloc]
  · intro e hloc
    simp only [resolve, hloc]

/-- Witness for C4's amended claim at a concrete input (the falsy-match
branch, on the counterexample's resolver). -/
theorem c4_witness :
    resolve_local urljoin0 unquote0 resolverC
        (rstripSlash (urljoin0 resolverC.resolution_scope "https://a#/k"))
        resolverC.referrer = .ok (some (JSON.bool false))
    ∧ (JSON.bool false).truthy = false
    ∧ resolve urljoin0 unquote0 fetch0 resolverC "https://a#/k" =
        (resolve_from_url unquote0 fetch0 resolverC
          (rstripSlash (urljoin0 resolverC.resolution_scope "https://a#/k"))).map
          fun doc => (rstripSlash (urljoin0 resolverC.resolution_scope "https://a#/k"), doc) :=
  ⟨rfl, rfl,
    (c4_resolve_local_then_remote urljoin0 unquote0 fetch0 resolverC "https://a#/k").2.1
      (JSON.bool false) rfl rfl⟩

/- ---------------------------------------------------------------------
C5: resolve_fragment — anchors, pointer walking, unescaping, failures
--------------------------------------------------------------------- -/

/-- The JSON-pointer encoding of one character of a property name:
`~` ↦ `~0`, `/` ↦ `~1` (the spec-side encoding whose decoding the
source performs). -/
def escChar (c : Char) : List Char :=
  if c = '~' then ['~', '0'] else if c = '/' then ['~', '1'] else [c]

/-- Character-wise JSON-pointer encoding of a property name. -/
def escList (l : List Char) : List Char := l.bind escChar

/-- The intermediate form after the source's first replace pass
(`~1` decoded back to `/`, `~0` still encoded). -/
def escTilde (l : List Char) : List Char :=
  l.bind fun c => if c = '~' then ['~', '0'] else [c]

/-- A property name as a JSON-pointer segment (`~` ↦ `~0`, `/` ↦ `~1`). -/
def escapeSeg (name : String) : String := String.mk (escList name.data)

/-- `replace2` unfolded on a two-or-more-element list. -/
theorem replace2_cons_cons (a b r c d : Char) (l : List Char) :
    replace2 a b r (c :: d :: l) =
      if c = a ∧ d = b then r :: replace2 a b r l
      else c :: replace2 a b r (d :: l) := rfl

/-- `replace2` skips a head character that cannot start the pattern. -/
theorem replace2_cons_ne {a b r c : Char} (h : ¬ c = a) :
    ∀ l, replace2 a b r (c :: l) = c :: replace2 a b r l := by
  intro l
  cases l with
  | nil => rfl
  | cons d t =>
    have hno : ¬(c = a ∧ d = b) := fun hcd => h hcd.1
    rw [replace2_cons_cons, if_neg hno]

/-- First replace pass on an encoded name: `~1` becomes `/` again and
`~0` survives. -/
theorem replace2_esc1 : ∀ l, replace2 '~' '1' '/' (escList l) = escTilde l := by
  intro l
  induction l with
  | nil => rfl
  | cons c t ih =>
    by_cases hc : c = '~'
    · subst hc
      show replace2 '~' '1' '/' ('~' :: '0' :: escList t) = '~' :: '0' :: escTilde t
      have hno : ¬(('~' : Char) = '~' ∧ ('0' : Char) = '1') := by decide
      rw [replace2_cons_cons, if_neg hno]
      rw [replace2_cons_ne (by decide : ¬ ('0' : Char) = '~'), ih]
    · by_cases hc2 : c = '/'
      · subst hc2
        show replace2 '~' '1' '/' ('~' :: '1' :: escList t) = '/' :: escTilde t
        have hyes : (('~' : Char) = '~' ∧ ('1' : Char) = '1') := by decide
        rw [replace2_cons_cons, if_pos hyes, ih]
      · have h1 : escList (c :: t) = c :: escList t := by
          show escChar c ++ escList t = c :: escList t
          unfold escChar
          rw [if_neg hc, if_neg hc2]
          rfl
        have h2 : escTilde (c :: t) = c :: escTilde t := by
          show (if c = '~' then ['~', '0'] else [c]) ++ escTilde t = c :: escTilde t
          rw [if_neg hc]
          rfl
        rw [h1, h2, replace2_cons_ne hc, ih]

/-- Second replace pass: `~0` becomes `~`, recovering the name. -/
theorem replace2_esc0 : ∀ l, replace2 '~' '0' '~' (escTilde l) = l := by
  intro l
  induction l with
  | nil => rfl
  | cons c t ih =>
    by_cases hc : c = '~'
    · subst hc
      show replace2 '~' '0' '~' ('~' :: '0' :: escTilde t) = '~' :: t
      have hyes : (('~' : Char) = '~' ∧ ('0' : Char) = '0') := by decide
      rw [replace2_cons_cons, if_pos hyes, ih]
    · have h2 : escTilde (c :: t) = c :: escTilde t := by
        show (if c = '~' then ['~', '0'] else [c]) ++ escTilde t = c :: escTilde t
        rw [if_neg hc]
        rfl
      rw [h2, replace2_cons_ne hc, ih]

/-- The source's two-pass segment unescape decodes the encoding exactly. -/
theorem partUnescape_escList (l : List Char) : partUnescape (escList l) = l := by
  unfold partUnescape
  rw [replace2_esc1, replace2_esc0]

/-- Encoding a character never produces the empty list. -/
theorem escChar_ne_nil (c : Char) : escChar c ≠ [] := by
  by_cases h1 : c = '~'
  · simp [escChar, h1]
  · by_cases h2 : c = '/'
    · simp [escChar, h1, h2]
    · simp [escChar, h1, h2]

/-- The encoded name contains no `/` (that is the point of `~1`). -/
theorem slash_not_mem_escList : ∀ l : List Char, '/' ∉ escList l := by
  intro l
  induction l with
  | nil => simp [escList]
  | cons c t ih =>
    intro h
    rcases List.mem_append.mp h with h1 | h2
    · unfold escChar at h1
      by_cases hc : c = '~'
      · rw [if_pos hc] at h1
        exact absurd h1 (by decide)
      · rw [if_neg hc] at h1
        by_cases hc2 : c = '/'
        · rw [if_pos hc2] at h1
          exact absurd h1 (by decide)
        · rw [if_neg hc2, List.mem_singleton] at h1
          exact hc2 h1.symm
    · exact ih h2

/-- Splitting on `/` is trivial when no `/` occurs. -/
theorem splitSlash_no_slash : ∀ l : List Char, '/' ∉ l → splitSlash l = [l] := by
  intro l
  induction l with
  | nil => intro h; rfl
  | cons c t ih =>
    intro h
    have hc : ¬(c = '/') := fun hce => h (hce ▸ List.mem_cons_self c t)
    have ht : '/' ∉ t := fun hm => h (List.mem_cons_of_mem c hm)
    simp only [splitSlash, if_neg hc]
    rw [ih ht]

/-- Encoding a non-empty name yields a non-empty segment. -/
theorem escapeSeg_ne_empty {name : String} (h : name ≠ "") : escapeSeg name ≠ "" := by
  intro he
  apply h
  have hdata : escList name.data = [] := congrArg String.data he
  have hnil : name.data = [] := by
    cases hnd : name.data with
    | nil => rfl
    | cons c t =>
      rw [hnd] at hdata
      have hsplit : escChar c ++ escList t = [] := hdata
      rcases List.append_eq_nil.mp hsplit with ⟨h1, _⟩
      exact absurd h1 (escChar_ne_nil c)
  cases name with
  | mk d =>
    simp only at hnil
    rw [hnil]

/-- Lstripping `/` leaves an encoded segment unchanged (it cannot start
with `/`). -/
theorem lstrip_escapeSeg (name : String) :
    lstripSlash (escapeSeg name) = escapeSeg name := by
  unfold lstripSlash escapeSeg
  show String.mk ((String.mk (escList name.data)).data.dropWhile fun ch => ch = '/') =
    String.mk (escList name.data)
  rw [show (String.mk (escList name.data)).data = escList name.data from rfl]
  cases hE : escList name.data with
  | nil => rfl
  | cons c t =>
    have hc : c ∈ escList name.data := by
      rw [hE]
      exact List.mem_cons_self c t
    have hcs : ¬(c = '/') := fun hce =>
      slash_not_mem_escList name.data (hce ▸ hc)
    rw [List.dropWhile_cons]
    simp [hcs]

/-- C5: `resolve_fragment` first returns an anchored subdocument when the
(lstripped) fragment names a registered anchor; otherwise it walks the
fragment as a JSON pointer: split on `/`, unescape `~1`/`~0` per segment
(so property names containing `/` or `~` are addressable through their
encoded segments), coerce a segment to an integer index on sequence-like
nodes, and fail with the unresolvable-pointer error naming the fragment
on an absent key, an out-of-range or non-integer index, or a
non-indexable node. -/
theorem c5_resolve_fragment_behaviour (unquote : String → String) :
    (∀ document fragment sub,
      lstripSlash fragment ≠ "" →
      findAnchor document (lstripSlash fragment) = some sub →
      resolve_fragment unquote document fragment = .ok sub)
    ∧ (∀ document fragment,
      lstripSlash fragment ≠ "" →
      findAnchor document (lstripSlash fragment) = none →
      resolve_fragment unquote document fragment =
        walkPtr (lstripSlash fragment)
          (splitSlash (unquote (lstripSlash fragment)).data) document)
    ∧ (∀ kvs name v,
      name ≠ "" →
      List.lookup name kvs = some v →
      unquote (escapeSeg name) = escapeSeg name →
      findAnchor (JSON.obj kvs) (escapeSeg name) = none →
      resolve_fragment unquote (JSON.obj kvs) (escapeSeg name) = .ok v)
    ∧ (∀ frag p rest xs (i : Int) d,
      String.toInt? (String.mk (partUnescape p)) = some i →
      pyIndex xs i = some d →
      walkPtr frag (p :: rest) (JSON.arr xs) = walkPtr frag rest d)
    ∧ (∀ frag p rest kvs,
      List.lookup (String.mk (partUnescape p)) kvs = none →
      walkPtr frag (p :: rest) (JSON.obj kvs) = .error (ptrError frag))
    ∧ (∀ frag p rest xs,
      (∀ i : Int, String.toInt? (String.mk (partUnescape p)) = some i →
        pyIndex xs i = none) →
      walkPtr frag (p :: rest) (JSON.arr xs) = .error (ptrError frag))
    ∧ (∀ frag p rest,
      walkPtr frag (p :: rest) JSON.null = .error (ptrError frag)
      ∧ (∀ b, walkPtr frag (p :: rest) (JSON.bool b) = .error (ptrError frag))
      ∧ (∀ n, walkPtr frag (p :: rest) (JSON.num n) = .error (ptrError frag)))
    ∧ (∀ frag, (ptrError frag).message =
        "Unresolvable JSON pointer: " ++ "'" ++ frag ++ "'") := by
  refine ⟨?_, ?_, ?_, ?_, ?_, ?_, ?_, fun frag => rfl⟩
  · intro document fragment sub hne hfa
    simp only [resolve_fragment]
    rw [if_pos hne, hfa]
  · intro document fragment hne hfa
    simp only [resolve_fragment]
    rw [if_pos hne, hfa]
    rw [if_pos hne]
  · intro kvs name v hname hlook hunq hanchor
    have hne : escapeSeg name ≠ "" := escapeSeg_ne_empty hname
    have hl : lstripSlash (escapeSeg name) = escapeSeg name := lstrip_escapeSeg name
    simp only [resolve_fragment, hl]
    rw [if_pos hne, hanchor, if_pos hne, hunq]
    have hdata : (escapeSeg name).data = escList name.data := rfl
    rw [hdata, splitSlash_no_slash _ (slash_not_mem_escList name.data)]
    simp only [walkPtr, partUnescape_escList]
    rw [show String.mk name.data = name from rfl, hlook]
  · intro frag p rest xs i d htoi hidx
    simp only [walkPtr, htoi, hidx]
  · intro frag p rest kvs hlook
    simp only [walkPtr, hlook]
  · intro frag p rest xs h
    cases htoi : String.toInt? (String.mk (partUnescape p)) with
    | none => simp only [walkPtr, htoi]
    | some i =>
      have hidx := h i htoi
      simp only [walkPtr, htoi, hidx]
  · intro frag p rest
    exact ⟨rfl, fun b => rfl, fun n => rfl⟩

/-- Witness for C5 at a concrete input: the property name `"a/b~c"`
(containing both `/` and `~`) is addressable via its encoded segment. -/
theorem c5_witness :
    ("a/b~c" : String) ≠ ""
    ∧ List.lookup "a/b~c" [("a/b~c", JSON.num 7)] = some (JSON.num 7)
    ∧ unquote0 (escapeSeg "a/b~c") = escapeSeg "a/b~c"
    ∧ findAnchor (JSON.obj [("a/b~c", JSON.num 7)]) (escapeSeg "a/b~c") = none
    ∧ resolve_fragment unquote0 (JSON.obj [("a/b~c", JSON.num 7)]) (escapeSeg "a/b~c") =
        .ok (JSON.num 7) :=
  ⟨by decide, rfl, rfl, rfl,
    (c5_resolve_fragment_behaviour unquote0).2.2.1 [("a/b~c", JSON.num 7)] "a/b~c"
      (JSON.num 7) (by decide) rfl rfl rfl⟩

end Jsonschema
